import Mathlib

/-!
# Verification of the AQI anomaly / STL post-processing pipeline

Shallow embedding of the two core modules of the repository:

* `stl_12_24.py` — gap-aware seasonal decomposition: NaN-run detection,
  tolerance-bounded linear interpolation, zero-fill for the decomposition,
  re-masking of large gaps, and the per-file driver's duplicate-timestamp
  handling.
* `ge_12_24.py` — baseline-index construction, ingestion validation,
  anomaly computation (inner join against the baseline index), per-station
  missing-timestamp findings, network-wide major-event detection, and
  regional averaging.

Modelling conventions:
* A time series on the complete hourly grid is a `List (Option ℚ)`;
  `none` is pandas `NaN`.  Timestamps are hour indices (`ℕ`); the hourly
  grid `pd.date_range(lo, hi, freq='h')` is `fullRangeList lo hi`.
* Numeric values are `ℚ` (the code's float32/float64 arithmetic at the
  claimed inputs is exact, so the rational model is faithful there).
* The STL fit itself (`statsmodels STL(...).fit()`) is an external
  numerical routine; it enters the model as an explicit parameter
  `stlSeasonal : List ℚ → Option (List ℚ)` returning the seasonal
  component, with `none` standing for a raised exception.  Every claim
  about `process_series_stl` quantifies over this parameter or picks a
  concrete instance, so no property depends on the numerics of STL itself.
-/

/-! ## Parameters of `stl_12_24.py` -/

def TOLERANCE_HOURS : ℕ := 2

def STL_PERIOD : ℕ := 24

def STL_SEASONAL : ℕ := 13

/-! ## pandas `Series.interpolate(method='linear', limit=tol)`

For an equally-spaced series, pandas linear interpolation with the default
`limit_direction='forward'`:
* a missing position with no earlier valid value (leading NaNs) is left
  missing;
* inside a maximal NaN run that starts after a valid value at index `p`,
  a position `i` is filled iff its offset `i - p` into the run is at most
  `limit` (so a run longer than `limit` is filled on its first `limit`
  positions only);
* the filled value is the linear interpolation between the bounding valid
  values `(p, vp)` and `(q, vq)`, or `vp` when no later valid value exists
  (numpy clamps beyond the last data point).
-/

/-- Last valid value strictly before position `i` (scanning `i-1, ..., 0`). -/
def prevValid (s : List (Option ℚ)) : ℕ → Option (ℕ × ℚ)
  | 0 => none
  | j + 1 =>
    match s.getD j none with
    | some v => some (j, v)
    | none => prevValid s j

/-- First valid value at position `j` or later, examining at most `fuel`
positions. -/
def nextValidAux (s : List (Option ℚ)) : ℕ → ℕ → Option (ℕ × ℚ)
  | _, 0 => none
  | j, fuel + 1 =>
    match s.getD j none with
    | some v => some (j, v)
    | none => nextValidAux s (j + 1) fuel

/-- First valid value strictly after position `i`. -/
def nextValid (s : List (Option ℚ)) (i : ℕ) : Option (ℕ × ℚ) :=
  nextValidAux s (i + 1) (s.length - (i + 1))

/-- `series.interpolate(method='linear', limit=limit)` from
`process_series_stl`, step 2 ("插值補值"). -/
def interpLimit (limit : ℕ) (s : List (Option ℚ)) : List (Option ℚ) :=
  (List.range s.length).map fun i =>
    match s.getD i none with
    | some v => some v
    | none =>
      match prevValid s i with
      | none => none
      | some (p, vp) =>
        if i - p ≤ limit then
          match nextValid s i with
          | some (q, vq) => some (vp + (vq - vp) * ((i - p : ℕ) : ℚ) / ((q - p : ℕ) : ℚ))
          | none => some vp
        else none

/-! ## NaN-run detection (`is_nan.ne(is_nan.shift()).cumsum()` grouping) -/

/-- Maximal runs of `none` in a series, as `(start index, length)` pairs,
accumulated left to right.  `cur` carries the run currently being read. -/
def nanRunsAux : List (Option ℚ) → ℕ → Option (ℕ × ℕ) → List (ℕ × ℕ)
  | [], _, none => []
  | [], _, some r => [r]
  | none :: rest, i, none => nanRunsAux rest (i + 1) (some (i, 1))
  | none :: rest, i, some (st, l) => nanRunsAux rest (i + 1) (some (st, l + 1))
  | some _ :: rest, i, none => nanRunsAux rest (i + 1) none
  | some _ :: rest, i, some r => r :: nanRunsAux rest (i + 1) none

def nanRuns (s : List (Option ℚ)) : List (ℕ × ℕ) :=
  nanRunsAux s 0 none

/-- One row of the STL gap report (`gap_reports.append({...})`).
Timestamps are positions on the hourly grid; the `strftime` formatting of
`start_time`/`end_time` is elided. -/
structure GapReport where
  file : String
  site : String
  item : String
  type : String
  durationHours : ℕ
  startTime : ℕ
  endTime : ℕ
deriving DecidableEq, Repr

/-- Gap reports for all NaN runs strictly longer than `TOLERANCE_HOURS`
(`process_series_stl`, step 1). -/
def gapReportsOf (file site item : String) (s : List (Option ℚ)) : List GapReport :=
  (nanRuns s).filterMap fun r =>
    if TOLERANCE_HOURS < r.2 then
      some ⟨file, site, item, "長時間缺測 (STL中斷)", r.2, r.1, r.1 + r.2 - 1⟩
    else none

/-- `deseasonalized.mask(mask_large_gaps)`: re-insert `none` at every
position whose mask bit is `true`. -/
def maskList (mask : List Bool) (s : List ℚ) : List (Option ℚ) :=
  List.zipWith (fun b v => if b then none else some v) mask s

/-- `process_series_stl(series, site, item, filename)` from `stl_12_24.py`.

`stlSeasonal` is the seasonal component computed by
`STL(series_for_stl, period=24, seasonal=13).fit()`; `none` models the
`except Exception` branch.  Mirrors the source step by step:
all-NaN early return, gap reports, `interpolate(limit=2)`,
`mask_large_gaps = series_interp.isna()`, `fillna(0)`, the
`len > STL_PERIOD * 2` guard, `series_for_stl - res.seasonal`, and the
final `.mask(mask_large_gaps)`. -/
def process_series_stl (stlSeasonal : List ℚ → Option (List ℚ))
    (file site item : String) (series : List (Option ℚ)) :
    List (Option ℚ) × List GapReport :=
  if series.all Option.isNone then (series, [])
  else
    let gapReports := gapReportsOf file site item series
    let seriesInterp := interpLimit TOLERANCE_HOURS series
    let maskLargeGaps := seriesInterp.map Option.isNone
    let seriesForStl := seriesInterp.map fun o => o.getD 0
    let finalSeries :=
      if STL_PERIOD * 2 < seriesForStl.length then
        match stlSeasonal seriesForStl with
        | some seasonal => maskList maskLargeGaps (List.zipWith (· - ·) seriesForStl seasonal)
        | none => seriesInterp
      else seriesInterp
    (finalSeries, gapReports)

/-- A trivial closed STL fit used to instantiate counterexamples: the
seasonal component is identically zero and no exception is raised. -/
def stlZero : List ℚ → Option (List ℚ) := fun l => some (l.map fun _ => 0)

/-! ## `stl_12_24.py` per-file driver: duplicate-timestamp handling

`process_file` groups rows by `(site, item)`, sets the datetime index,
drops rows whose timestamp already occurred
(`group[~group.index.duplicated(keep='first')]`) and reindexes the target
column onto the file's complete hourly grid. -/

/-- One row of a `(site, item)` group in the per-file driver: a timestamp
and the target-column (`anomaly`/`value`) entry, `none` = NaN. -/
structure StlRow where
  dt : ℕ
  value : Option ℚ
deriving DecidableEq, Repr

/-- `group[~group.index.duplicated(keep='first')]`: drop every row whose
timestamp appeared on an earlier row; `seen` collects timestamps already
encountered. -/
def dedupFirstAux : List StlRow → List ℕ → List StlRow
  | [], _ => []
  | r :: rest, seen =>
    if r.dt ∈ seen then dedupFirstAux rest seen
    else r :: dedupFirstAux rest (r.dt :: seen)

def dedupFirst (rows : List StlRow) : List StlRow :=
  dedupFirstAux rows []

/-- `group[target_col].reindex(full_range)`: one entry per grid timestamp,
the (unique, after deduplication) row's value if present, `NaN` otherwise.
pandas takes the first index match. -/
def reindexSeries (rows : List StlRow) (range : List ℕ) : List (Option ℚ) :=
  range.map fun t =>
    match rows.find? fun r => r.dt == t with
    | some r => r.value
    | none => none

/-- Lines 158–162 of `stl_12_24.py`: the series a `(site, item)` group
contributes to `process_series_stl`. -/
def groupSeries (rows : List StlRow) (range : List ℕ) : List (Option ℚ) :=
  reindexSeries (dedupFirst rows) range

/-! ## `ge_12_24.py`: data model -/

/-- The raw `value` column after `pd.to_numeric(..., errors='coerce')`:
`null` is an empty cell (NaN), `text s` a non-null literal that fails
numeric coercion, `num q` a numeric value. -/
inductive RawVal
  | null : RawVal
  | text : String → RawVal
  | num : ℚ → RawVal
deriving DecidableEq, Repr

/-- One row of a raw hourly observation file.  `dt` is the timestamp after
`pd.to_datetime(..., errors='coerce')` (`none` = unparseable); timestamps
are hour indices. -/
structure RawRow where
  dt : Option ℕ
  site : String
  item : String
  value : RawVal
deriving DecidableEq, Repr

/-- A row of `df_clean`: parseable timestamp, numeric in-range value. -/
structure CleanObs where
  dt : ℕ
  site : String
  item : String
  value : ℚ
deriving DecidableEq, Repr

/-- One validation finding appended to `report_list`. -/
structure Finding where
  file : String
  site : String
  item : String
  type : String
  detail : String
deriving DecidableEq, Repr

/-- One entry of `major_events` (全網斷訊). -/
structure MajorEvent where
  file : String
  dt : ℕ
  event : String
deriving DecidableEq, Repr

/-- One row of the in-memory baseline lookup built by
`load_and_transform_averages`. -/
structure BEntry where
  item : String
  site : String
  doy : ℕ
  hour : ℕ
  avg : ℚ
deriving DecidableEq, Repr

/-- One anomaly row of `merged` after the join and
`merged['anomaly'] = merged['value'] - merged['avg_value']`. -/
structure ARec where
  dt : ℕ
  site : String
  item : String
  value : ℚ
  avg : ℚ
  anomaly : ℚ
deriving DecidableEq, Repr

/-- One row of `region_avg` (step 8). -/
structure RegAvg where
  dt : ℕ
  item : String
  region : String
  anomaly : ℚ
  site : String
deriving DecidableEq, Repr

/-- `items_info` restricted to the numeric tolerance bounds `(min, max)`;
display names and units play no role in the computation. -/
def items_info : String → Option (ℚ × ℚ)
  | "AMB_TEMP" => some (-15, 55)
  | "CO" => some (0, 60)
  | "NO" => some (0, 600)
  | "NO2" => some (0, 600)
  | "NOx" => some (0, 1200)
  | "O3" => some (0, 600)
  | "PM10" => some (0, 1200)
  | "PM2.5" => some (0, 600)
  | "RAINFALL" => some (0, 3000)
  | "RH" => some (0, 100)
  | "SO2" => some (0, 300)
  | "WD_HR" => some (0, 360)
  | "WIND_DIREC" => some (0, 360)
  | "WIND_SPEED" => some (0, 120)
  | "WS_HR" => some (0, 120)
  | _ => none

/-- The `areas` region table of `ge_12_24.py`. -/
def areas : List (String × List String) :=
  [("北", ["三重", "中壢", "中山", "冬山", "古亭", "土城", "基隆", "士林",
           "大園", "宜蘭", "平鎮", "新店", "新竹", "新莊", "松山", "板橋",
           "林口", "桃園", "永和", "汐止", "淡水", "湖口", "竹東", "菜寮",
           "萬華", "萬里", "觀音", "陽明", "龍潭"]),
   ("中", ["三義", "二林", "南投", "大里", "彰化", "忠明", "沙鹿",
           "線西", "苗栗", "西屯", "豐原", "頭份"]),
   ("南", ["仁武", "前金", "前鎮", "善化", "嘉義", "大寮", "安南",
           "小港", "屏東", "崙背", "左營", "復興", "恆春", "斗六",
           "新港", "新營", "朴子", "林園", "楠梓", "橋頭", "潮州",
           "美濃", "臺南", "臺西", "鳳山"]),
   ("東", ["臺東", "花蓮"])]

/-- `site_to_region` dict; no station occurs in two regions, so the
first-match lookup equals the dict built by the source's loop. -/
def site_to_region (s : String) : Option String :=
  (areas.find? fun a => s ∈ a.2).map Prod.fst

/-- `pd.date_range(lo, hi, freq='h')` as hour indices (inclusive ends). -/
def fullRangeList (lo hi : ℕ) : List ℕ :=
  (List.range (hi + 1 - lo)).map (lo + ·)

/-- `datetime.dt.dayofyear` for an hour index, for a series of hourly
timestamps starting at day-of-year 1 hour 0 (the calendar embedding used
throughout the model: hour index `t` falls on day `t / 24 + 1`). -/
def dayofyear (t : ℕ) : ℕ := t / 24 + 1

/-- `datetime.dt.hour` for an hour index. -/
def hourOf (t : ℕ) : ℕ := t % 24

/-! ## `load_and_transform_averages` (STEP 1 of `ge_12_24.py`)

A per-item historical table is wide: one row per station, one column per
`"<day_of_year>_<hour>"` label.  The model carries the column label
already split into its `(day_of_year, hour)` pair (the string split and
`astype` are pure label parsing) and a cell as `Option ℚ`, `none` being a
missing or non-numeric historical value, i.e. a cell dropped by
`pd.to_numeric(..., errors='coerce')` + `dropna`. -/

/-- One station row of a wide per-item historical table. -/
structure AvgRow where
  site : String
  cells : List ((ℕ × ℕ) × Option ℚ)
deriving DecidableEq, Repr

/-- `melt` + label split + `dropna(subset=['avg_value'])` for one item's
table.  Every numeric cell yields one entry; nothing is deduplicated.
(pandas `melt` enumerates column-major; the subsequent `sort_index` makes
the row order immaterial, so the model enumerates row-major.) -/
def meltItem (item : String) (rows : List AvgRow) : List BEntry :=
  rows.flatMap fun r =>
    r.cells.filterMap fun c =>
      match c.2 with
      | some q => some ⟨item, r.site, c.1.1, c.1.2, q⟩
      | none => none

/-- `load_and_transform_averages`: concatenation of the melted per-item
tables.  `tables` holds the readable per-item source tables (an unreadable
or absent item file is simply absent from `tables`, matching the per-item
`except` / `continue`).  `set_index` + `sort_index` only reorder rows and
are elided: the lookup is modelled as the list of its entries. -/
def load_and_transform_averages (tables : List (String × List AvgRow)) : List BEntry :=
  tables.flatMap fun tb => meltItem tb.1 tb.2

/-! ## `process_and_plot` (STEP 2 & 3 of `ge_12_24.py`), data part -/

def isNullVal : RawVal → Bool
  | RawVal.null => true
  | _ => false

def isTextVal : RawVal → Bool
  | RawVal.text _ => true
  | _ => false

/-- Step 2 (嚴格檢查 CSV 空值): one finding per `(site, item)` group of
null-valued rows, with the group's row count.  Runs on the full frame,
before any row is dropped. -/
def nullFindings (file : String) (rows : List RawRow) : List Finding :=
  let nulls := rows.filter fun r => isNullVal r.value
  ((nulls.map fun r => (r.site, r.item)).dedup).map fun si =>
    ⟨file, si.1, si.2, "原始資料空值",
      "有 " ++ toString (nulls.countP fun r => r.site == si.1 && r.item == si.2)
        ++ " 筆記錄值為空白"⟩

/-- Step 3 (非預期文字): one finding per row whose value is non-null but
fails numeric coercion. -/
def invalidTextFindings (file : String) (rows : List RawRow) : List Finding :=
  rows.filterMap fun r =>
    match r.value with
    | RawVal.text s => some ⟨file, r.site, r.item, "非預期文字", "Value: " ++ s⟩
    | _ => none

/-- `df.dropna(subset=['datetime', 'numeric_value'])` (line 185): keep rows
with a parseable timestamp and a numeric value. -/
def dropBad (rows : List RawRow) : List CleanObs :=
  rows.filterMap fun r =>
    match r.dt, r.value with
    | some t, RawVal.num q => some ⟨t, r.site, r.item, q⟩
    | _, _ => none

/-- The out-of-bound test of step 4:
`(group['value'] < info['min']) | (group['value'] > info['max'])` for an
item with an `items_info` entry; an unknown item is never out of bound. -/
def outOfBound (item : String) (v : ℚ) : Bool :=
  match items_info item with
  | some b => decide (v < b.1) || decide (b.2 < v)
  | none => false

/-- Step 4 findings (數值越界): per item with a spec, the first five
out-of-bound rows (`errs.head(5)`) each yield a finding.  The per-item
iteration follows first occurrence; pandas `groupby` sorts groups by key,
which permutes the findings list but not its contents. -/
def rangeFindings (file : String) (rows : List CleanObs) : List Finding :=
  ((rows.map fun o => o.item).dedup).flatMap fun it =>
    match items_info it with
    | none => []
    | some b =>
      ((rows.filter fun o => o.item == it && (decide (o.value < b.1) || decide (b.2 < o.value))).take 5).map
        fun o => ⟨file, o.site, it, "數值越界",
          "Value: " ++ toString o.value ++ " (Limit: " ++ toString b.1 ++ "~" ++ toString b.2 ++ ")"⟩

/-- `df_clean`: the rows surviving step 4.  The source rebuilds the frame
as `concat` of per-item groups, a permutation of this filter; every
claimed property is invariant under that permutation. -/
def df_clean (rows : List RawRow) : List CleanObs :=
  (dropBad rows).filter fun o => !outOfBound o.item o.value

/-- Step 5 (時段資料遺失): for each `(site, item)` group of `df_clean`
with fewer rows than `len(full_range)`, the reported count
`expected_len - len(set(group['datetime']))`. -/
def missingSummary (fullRange : List ℕ) (clean : List CleanObs) : List (String × String × ℕ) :=
  ((clean.map fun o => (o.site, o.item)).dedup).filterMap fun si =>
    let grp := clean.filter fun o => o.site == si.1 && o.item == si.2
    if grp.length < fullRange.length then
      some (si.1, si.2, fullRange.length - ((grp.map fun o => o.dt).dedup).length)
    else none

def missingFindings (file : String) (fullRange : List ℕ) (clean : List CleanObs) : List Finding :=
  (missingSummary fullRange clean).map fun e =>
    ⟨file, e.1, e.2.1, "時段資料遺失", "缺失 " ++ toString e.2.2 ++ " 小時"⟩

/-- Step 6 (重大事件：全網斷訊): one event per grid timestamp carried by
no clean observation of any station.  The source iterates
`set(full_range) - set(existing_times)`; the grid has pairwise distinct
timestamps, so filtering the grid yields the same events (sets compare
unordered). -/
def majorEvents (file : String) (fullRange : List ℕ) (clean : List CleanObs) : List MajorEvent :=
  (fullRange.filter fun t => !clean.any fun o => o.dt == t).map fun t =>
    ⟨file, t, "重大事件：全網斷訊"⟩

/-- Step 7: `df_clean.join(global_avg_lookup, how='inner')` on
`(item, site, day_of_year, hour)` followed by
`anomaly = value - avg_value`.  A left row joined against a duplicated
index key yields one output row per matching lookup entry. -/
def computeAnomalies (lookup : List BEntry) (clean : List CleanObs) : List ARec :=
  clean.flatMap fun o =>
    (lookup.filter fun e =>
        e.item == o.item && e.site == o.site && e.doy == dayofyear o.dt && e.hour == hourOf o.dt).map
      fun e => ⟨o.dt, o.site, o.item, o.value, e.avg, o.value - e.avg⟩

/-- The grouping key of step 8. -/
structure RKey where
  dt : ℕ
  item : String
  region : String
deriving DecidableEq, Repr

/-- The region-tagged anomaly rows surviving
`merged['region'] = merged['site'].map(site_to_region)` +
`dropna(subset=['region'])`. -/
def validRegionRows (recs : List ARec) : List (RKey × ℚ) :=
  recs.filterMap fun r =>
    (site_to_region r.site).map fun reg => (⟨r.dt, r.item, reg⟩, r.anomaly)

/-- The anomalies contributing to one `(datetime, item, region)` group. -/
def regionContrib (recs : List ARec) (k : RKey) : List ℚ :=
  ((validRegionRows recs).filter fun x => x.1 == k).map Prod.snd

/-- Step 8: `groupby(['datetime', 'item', 'region'])['anomaly'].mean()`
plus `region_avg['site'] = "AVG_" + region`.  One output row per distinct
key of the surviving rows; `mean` of a group with no NaN (anomalies are
defined at creation) is sum over size.  pandas emits groups in sorted key
order; the model emits one row per distinct key, which is the same set of
rows. -/
def regionAvg (recs : List ARec) : List RegAvg :=
  (((validRegionRows recs).map Prod.fst).dedup).map fun k =>
    let vals := regionContrib recs k
    ⟨k.dt, k.item, k.region, vals.sum / (vals.length : ℚ), "AVG_" ++ k.region⟩

/-- `report_list` in append order: step 2, step 3, step 4, step 5. -/
def reportList (file : String) (fullRange : List ℕ) (rows : List RawRow) : List Finding :=
  nullFindings file rows ++ invalidTextFindings file rows
    ++ rangeFindings file (dropBad rows) ++ missingFindings file fullRange (df_clean rows)

def parsedDts (rows : List RawRow) : List ℕ :=
  rows.filterMap fun r => r.dt

/-- The data artifacts of `process_and_plot(file_path)`: validation
findings, major events, anomaly rows (the per-file anomaly CSV) and
regional averages.  `none` models the `return None` exits: no parseable
timestamp at all, an empty `valid_df_list`, or an empty join result
(`if merged.empty: return None`, which exits *before* any report or CSV
is written).  Plotting, file IO and the memory cleanup are external
consumers and are elided. -/
def process_and_plot (lookup : List BEntry) (file : String) (rows : List RawRow) :
    Option (List Finding × List MajorEvent × List ARec × List RegAvg) :=
  match parsedDts rows with
  | [] => none
  | d :: ds =>
    let lo := ds.foldl min d
    let hi := ds.foldl max d
    let fullRange := fullRangeList lo hi
    if (dropBad rows).isEmpty then none
    else
      let clean := df_clean rows
      let recs := computeAnomalies lookup clean
      if recs.isEmpty then none
      else some (reportList file fullRange rows, majorEvents file fullRange clean,
                 recs, regionAvg recs)

/-! ## Helper lemmas: interpolation on an all-missing series -/

lemma interpLimit_length (lim : ℕ) (s : List (Option ℚ)) :
    (interpLimit lim s).length = s.length := by
  simp [interpLimit]

lemma getD_eq_none_of_all_isNone {s : List (Option ℚ)}
    (h : s.all Option.isNone = true) (j : ℕ) : s.getD j none = none := by
  rcases Nat.lt_or_ge j s.length with hj | hj
  · have hx : s[j] ∈ s := List.getElem_mem hj
    have := List.all_eq_true.mp h _ hx
    have hx2 : s[j] = none := Option.isNone_iff_eq_none.mp this
    rw [List.getD_eq_getElem s none hj, hx2]
  · rw [List.getD_eq_default]
    exact hj

lemma prevValid_of_all_isNone {s : List (Option ℚ)}
    (h : s.all Option.isNone = true) : ∀ i, prevValid s i = none := by
  intro i
  induction i with
  | zero => rfl
  | succ j ih =>
    unfold prevValid
    rw [getD_eq_none_of_all_isNone h j]
    exact ih

lemma interpLimit_of_all_isNone {s : List (Option ℚ)} (lim : ℕ)
    (h : s.all Option.isNone = true) : interpLimit lim s = s := by
  apply List.ext_getElem (interpLimit_length lim s)
  intro i h1 h2
  have hi : (interpLimit lim s)[i] =
      (match s.getD i none with
       | some v => some v
       | none =>
         match prevValid s i with
         | none => none
         | some (p, vp) =>
           if i - p ≤ lim then
             match nextValid s i with
             | some (q, vq) => some (vp + (vq - vp) * ((i - p : ℕ) : ℚ) / ((q - p : ℕ) : ℚ))
             | none => some vp
           else none) := by
    simp [interpLimit]
  rw [hi, getD_eq_none_of_all_isNone h i, prevValid_of_all_isNone h i]
  have hx : s[i] ∈ s := List.getElem_mem h2
  exact (Option.isNone_iff_eq_none.mp (List.all_eq_true.mp h _ hx)).symm

/-! ## Helper lemmas: `keep='first'` deduplication -/

lemma find?_dedupFirstAux (rows : List StlRow) (seen : List ℕ) (t : ℕ)
    (ht : t ∉ seen) :
    (dedupFirstAux rows seen).find? (fun r => r.dt == t) =
      rows.find? (fun r => r.dt == t) := by
  induction rows generalizing seen with
  | nil => rfl
  | cons r rest ih =>
    simp only [dedupFirstAux]
    by_cases hmem : r.dt ∈ seen
    · rw [if_pos hmem]
      have hne : (r.dt == t) = false := by
        rw [beq_eq_false_iff_ne]
        intro he
        exact ht (he ▸ hmem)
      rw [List.find?_cons, hne, ih seen ht]
    · rw [if_neg hmem]
      by_cases hrt : r.dt = t
      · have hb : (r.dt == t) = true := beq_iff_eq.mpr hrt
        rw [List.find?_cons, List.find?_cons, hb]
      · have hb : (r.dt == t) = false := beq_eq_false_iff_ne.mpr hrt
        rw [List.find?_cons, List.find?_cons, hb]
        have ht2 : t ∉ r.dt :: seen := by
          intro hc
          rcases List.mem_cons.mp hc with hc | hc
          · exact hrt hc.symm
          · exact ht hc
        exact ih (r.dt :: seen) ht2

lemma dedupFirstAux_append_dup (rows : List StlRow) (r : StlRow) :
    ∀ seen : List ℕ, (r.dt ∈ seen ∨ ∃ q ∈ rows, q.dt = r.dt) →
    dedupFirstAux (rows ++ [r]) seen = dedupFirstAux rows seen := by
  induction rows with
  | nil =>
    intro seen h
    rcases h with h | ⟨q, hq, _⟩
    · simp [dedupFirstAux, h]
    · exact absurd hq (List.not_mem_nil q)
  | cons q rest ih =>
    intro seen h
    simp only [List.cons_append, dedupFirstAux]
    by_cases hq : q.dt ∈ seen
    · rw [if_pos hq, if_pos hq]
      apply ih
      rcases h with h | ⟨q', hq', he⟩
      · exact Or.inl h
      · rcases List.mem_cons.mp hq' with hh | hh
        · exact Or.inl (by rw [← he, hh]; exact hq)
        · exact Or.inr ⟨q', hh, he⟩
    · rw [if_neg hq, if_neg hq]
      congr 1
      apply ih
      rcases h with h | ⟨q', hq', he⟩
      · exact Or.inl (List.mem_cons_of_mem _ h)
      · rcases List.mem_cons.mp hq' with hh | hh
        · exact Or.inl (by rw [← he, hh]; exact List.mem_cons_self _ _)
        · exact Or.inr ⟨q', hh, he⟩

/-! ## Claims about the Seasonal Decomposer -/

/-- Claim C9: for an input series whose values are all missing,
`process_series_stl` returns the series unchanged and emits zero gap
reports, even though such a series is one missing run longer than the
tolerance (the `if is_nan.all(): return series, gap_reports` early exit
precedes gap detection). -/
theorem stl_all_missing_series_unchanged
    (stlSeasonal : List ℚ → Option (List ℚ)) (file site item : String)
    (series : List (Option ℚ)) (h : series.all Option.isNone = true) :
    process_series_stl stlSeasonal file site item series = (series, []) := by
  unfold process_series_stl
  rw [if_pos h]

/-- Witness for C9: a concrete all-missing series of length 4 (one run of
4 > TOLERANCE_HOURS) comes back unchanged with zero gap reports. -/
theorem stl_all_missing_series_unchanged_witness :
    process_series_stl stlZero "f" "site" "item" [none, none, none, none] =
      ([none, none, none, none], []) :=
  stl_all_missing_series_unchanged stlZero "f" "site" "item" _ (by decide)

/-- Claim C8: if the series length does not exceed `2 * STL_PERIOD` (48)
or the decomposition raises (`stlSeasonal` returns `none`), the returned
series is the interpolated pre-decomposition series unchanged; the failure
is absorbed locally (the model function is total and returns a value in
every case). -/
theorem stl_short_or_failed_returns_interpolated
    (stlSeasonal : List ℚ → Option (List ℚ)) (file site item : String)
    (series : List (Option ℚ))
    (h : series.length ≤ STL_PERIOD * 2 ∨
      stlSeasonal ((interpLimit TOLERANCE_HOURS series).map fun o => o.getD 0) = none) :
    (process_series_stl stlSeasonal file site item series).1 =
      interpLimit TOLERANCE_HOURS series := by
  unfold process_series_stl
  by_cases hall : series.all Option.isNone = true
  · rw [if_pos hall, interpLimit_of_all_isNone _ hall]
  · rw [if_neg hall]
    dsimp only
    rcases h with hlen | hraise
    · rw [if_neg]
      simp only [List.length_map, interpLimit_length]
      omega
    · by_cases hlt :
        STL_PERIOD * 2 < ((interpLimit TOLERANCE_HOURS series).map fun o => o.getD 0).length
      · rw [if_pos hlt, hraise]
      · rw [if_neg hlt]

/-- Witness for C8: a concrete length-3 series (≤ 48) passes the
interpolated series through. -/
theorem stl_short_or_failed_returns_interpolated_witness :
    (process_series_stl stlZero "f" "site" "item" [some 1, none, some 3]).1 =
      interpLimit TOLERANCE_HOURS [some 1, none, some 3] :=
  stl_short_or_failed_returns_interpolated stlZero "f" "site" "item" _ (Or.inl (by decide))

/-- Claim C1 is false on the code (code bug): for the series
`[1, NaN, NaN, NaN, NaN, NaN, 2]` the 5-hour missing run (strictly longer
than `TOLERANCE_HOURS = 2`) is reported as a break gap, yet the returned
final series is non-missing at positions 1 and 2 of that run:
`interpolate(limit=2)` fills the first two positions of the long run, so
`mask_large_gaps = series_interp.isna()` no longer covers them and the
re-mask cannot restore them to missing.  The code's own comments
("大洞留著 NaN", "還原大斷點") state the opposite intent. -/
theorem stl_break_gap_positions_leak_values :
    ((process_series_stl stlZero "f" "site" "item"
        [some 1, none, none, none, none, none, some 2]).1.map Option.isNone,
      (process_series_stl stlZero "f" "site" "item"
        [some 1, none, none, none, none, none, some 2]).2) =
      ([false, false, false, true, true, true, false],
       [⟨"f", "site", "item", "長時間缺測 (STL中斷)", 5, 1, 5⟩]) := by decide

/-- Claim C2 is false on the code (code bug): for the series
`[NaN, 1, NaN, NaN, NaN, NaN, NaN, 2]`,
(i) the leading run of length 1 ≤ tolerance is NOT interpolated (forward
linear interpolation never fills positions before the first valid value),
so the output is missing inside a fillable run, and
(ii) the 5-hour run (> tolerance) IS partially filled at its first two
positions, contradicting "a run longer than tolerance must never be
partially filled" and the code's own "只補小洞，大洞留著 NaN" comment. -/
theorem stl_interpolation_partial_and_leading_gaps :
    ((process_series_stl stlZero "g" "site" "item"
        [none, some 1, none, none, none, none, none, some 2]).1.map Option.isNone,
      (process_series_stl stlZero "g" "site" "item"
        [none, some 1, none, none, none, none, none, some 2]).2) =
      ([true, false, false, false, true, true, true, false],
       [⟨"g", "site", "item", "長時間缺測 (STL中斷)", 5, 2, 6⟩]) := by decide

/-- Claim C10: in the per-file driver, each `(site, item)` group is
deduplicated with `keep='first'` before reindexing, so (i) the series
handed to the STL stage carries, at each grid timestamp, the value of the
first row bearing that timestamp, and (ii) appending a duplicate row whose
timestamp already occurs leaves the deduplicated group unchanged — a later
duplicate row never influences the output series. -/
theorem dedup_keep_first_determines_series (rows : List StlRow) (range : List ℕ) :
    groupSeries rows range =
      range.map (fun t => (rows.find? fun r => r.dt == t).bind StlRow.value)
    ∧ ∀ r : StlRow, (∃ q ∈ rows, q.dt = r.dt) →
        dedupFirst (rows ++ [r]) = dedupFirst rows := by
  constructor
  · unfold groupSeries reindexSeries dedupFirst
    apply List.map_congr_left
    intro t _
    rw [find?_dedupFirstAux rows [] t (List.not_mem_nil t)]
    cases rows.find? fun r => r.dt == t <;> rfl
  · intro r h
    exact dedupFirstAux_append_dup rows r [] (Or.inr h)

/-- Witness for C10 at a concrete group with a duplicated timestamp. -/
theorem dedup_keep_first_determines_series_witness :
    groupSeries [⟨0, some 1⟩, ⟨0, some 99⟩, ⟨2, none⟩] [0, 1, 2] =
      [0, 1, 2].map (fun t =>
        (([⟨0, some 1⟩, ⟨0, some 99⟩, ⟨2, none⟩] : List StlRow).find? fun r => r.dt == t).bind
          StlRow.value)
    ∧ dedupFirst ([⟨0, some 1⟩, ⟨0, some 99⟩, ⟨2, none⟩] ++ [⟨0, some 5⟩]) =
        dedupFirst [⟨0, some 1⟩, ⟨0, some 99⟩, ⟨2, none⟩] :=
  ⟨(dedup_keep_first_determines_series _ _).1,
   (dedup_keep_first_determines_series
      [⟨0, some 1⟩, ⟨0, some 99⟩, ⟨2, none⟩] [0, 1, 2]).2 ⟨0, some 5⟩
     ⟨⟨0, some 1⟩, List.mem_cons_self _ _, rfl⟩⟩

/-! ## Generic counting helpers -/

lemma countP_flatMap {α β : Type} (l : List α) (f : α → List β) (p : β → Bool) :
    (l.flatMap f).countP p = (l.map fun a => (f a).countP p).sum := by
  induction l with
  | nil => rfl
  | cons a t ih => simp [List.flatMap_cons, List.countP_append, ih]

lemma countP_filterMap {α β : Type} (l : List α) (g : α → Option β) (p : β → Bool) :
    (l.filterMap g).countP p = l.countP fun a => ((g a).map p).getD false := by
  induction l with
  | nil => rfl
  | cons a t ih =>
    rw [List.filterMap_cons]
    cases h : g a with
    | none => rw [List.countP_cons, h]; simp [ih]
    | some b => rw [List.countP_cons, List.countP_cons, h, ih]; simp

lemma countP_add_countP_not {α : Type} (p : α → Bool) (l : List α) :
    l.countP p + l.countP (fun a => !p a) = l.length := by
  induction l with
  | nil => rfl
  | cons a t ih =>
    rw [List.countP_cons, List.countP_cons]
    cases h : p a <;> simp [h] <;> omega

lemma find?_beq_of_mem {α : Type} [DecidableEq α] {a : α} {l : List α} (h : a ∈ l) :
    l.find? (fun x => x == a) = some a := by
  induction l with
  | nil => exact absurd h (List.not_mem_nil a)
  | cons b t ih =>
    rcases List.mem_cons.mp h with hb | ht
    · subst hb
      simp [List.find?_cons]
    · by_cases hba : b = a
      · subst hba; simp [List.find?_cons]
      · rw [List.find?_cons]
        have : (b == a) = false := beq_eq_false_iff_ne.mpr hba
        rw [this]
        exact ih ht

/-! ## Claim C6: anomaly arithmetic -/

/-- Claim C6: every row of the joined frame satisfies
`anomaly = value - avg_value` exactly — plain subtraction, no rounding or
clamping (the model's exact rationals coincide with the code's float
arithmetic at every claimed input, e.g. 35.5 − 30.0). -/
theorem anomaly_is_observed_minus_expected
    (lookup : List BEntry) (clean : List CleanObs) (r : ARec)
    (h : r ∈ computeAnomalies lookup clean) :
    r.anomaly = r.value - r.avg := by
  unfold computeAnomalies at h
  rcases List.mem_flatMap.mp h with ⟨o, _, hr⟩
  rcases List.mem_map.mp hr with ⟨e, _, heq⟩
  rw [← heq]

/-- The concrete scenario of C6: station 臺南, item O3, day-of-year 45,
hour 10 (hour index 1066 = 44·24 + 10), observed 35.5 against baseline
30.0. -/
def demoLookup : List BEntry := [⟨"O3", "臺南", 45, 10, 30⟩]

def demoClean : List CleanObs := [⟨1066, "臺南", "O3", 35.5⟩]

def demoRec : ARec := ⟨1066, "臺南", "O3", 35.5, 30, 5.5⟩

lemma demo_computeAnomalies : computeAnomalies demoLookup demoClean = [demoRec] := by
  norm_num [computeAnomalies, demoLookup, demoClean, demoRec, dayofyear, hourOf]

/-- Witness for C6: the produced record has anomaly = observed − expected,
and its value is exactly 5.5. -/
theorem anomaly_is_observed_minus_expected_witness :
    demoRec.anomaly = demoRec.value - demoRec.avg ∧ demoRec.anomaly = 5.5 :=
  ⟨anomaly_is_observed_minus_expected demoLookup demoClean demoRec
      (demo_computeAnomalies ▸ List.mem_cons_self _ _),
   rfl⟩

/-! ## Claim C3: unmatched observations and the set of finding kinds -/

/-- Every finding `process_and_plot` ever appends to `report_list` carries
one of the four kinds produced by steps 2–5; in particular no finding kind
reports a failed baseline join. -/
lemma reportList_types (file : String) (fullRange : List ℕ) (rows : List RawRow) :
    ∀ f ∈ reportList file fullRange rows,
      f.type = "原始資料空值" ∨ f.type = "非預期文字"
        ∨ f.type = "數值越界" ∨ f.type = "時段資料遺失" := by
  intro f hf
  unfold reportList at hf
  rcases List.mem_append.mp hf with hf | hf4
  rcases List.mem_append.mp hf with hf | hf3
  rcases List.mem_append.mp hf with hf1 | hf2
  · rcases List.mem_map.mp hf1 with ⟨si, _, he⟩
    exact Or.inl (by rw [← he])
  · rcases List.mem_filterMap.mp hf2 with ⟨r, _, he⟩
    cases hv : r.value with
    | null => rw [hv] at he; exact absurd he (by simp)
    | num q => rw [hv] at he; exact absurd he (by simp)
    | text s =>
      rw [hv] at he
      simp only [Option.some.injEq] at he
      exact Or.inr (Or.inl (by rw [← he]))
  · unfold rangeFindings at hf3
    rcases List.mem_flatMap.mp hf3 with ⟨it, _, hin⟩
    cases hb : items_info it with
    | none => rw [hb] at hin; exact absurd hin (List.not_mem_nil f)
    | some b =>
      rw [hb] at hin
      rcases List.mem_map.mp hin with ⟨o, _, he⟩
      exact Or.inr (Or.inr (Or.inl (by rw [← he])))
  · rcases List.mem_map.mp hf4 with ⟨e, _, he⟩
    exact Or.inr (Or.inr (Or.inr (by rw [← he])))

/-- Claim C3 as amended: a clean observation whose key matches no baseline
entry contributes no row to the joined anomaly frame (inner-join
semantics), and it is *silently dropped*: the report list never contains
any finding beyond the four kinds of steps 2–5, so in particular no
`baseline_missing`-style finding exists for it. -/
theorem unmatched_observation_silently_dropped
    (lookup : List BEntry) (clean : List CleanObs) (o : CleanObs)
    (file : String) (fullRange : List ℕ) (rows : List RawRow)
    (_ho : o ∈ clean)
    (hnb : ∀ e ∈ lookup, ¬(e.item = o.item ∧ e.site = o.site
      ∧ e.doy = dayofyear o.dt ∧ e.hour = hourOf o.dt)) :
    ((computeAnomalies lookup clean).countP fun r =>
        r.dt == o.dt && r.site == o.site && r.item == o.item) = 0
    ∧ ((reportList file fullRange rows).countP fun f =>
        !(f.type == "原始資料空值" || f.type == "非預期文字"
          || f.type == "數值越界" || f.type == "時段資料遺失")) = 0 := by
  constructor
  · rw [List.countP_eq_zero]
    intro r hr hpred
    unfold computeAnomalies at hr
    rcases List.mem_flatMap.mp hr with ⟨o2, _, hmap⟩
    rcases List.mem_map.mp hmap with ⟨e, he, heq⟩
    rcases List.mem_filter.mp he with ⟨helem, hkey⟩
    simp only [Bool.and_eq_true, beq_iff_eq] at hkey hpred
    obtain ⟨⟨⟨hkitem, hksite⟩, hkdoy⟩, hkhour⟩ := hkey
    have hdt : r.dt = o2.dt := by rw [← heq]
    have hsite : r.site = o2.site := by rw [← heq]
    have hitem : r.item = o2.item := by rw [← heq]
    obtain ⟨⟨hpdt, hpsite⟩, hpitem⟩ := hpred
    refine hnb e helem ⟨?_, ?_, ?_, ?_⟩
    · rw [hkitem, ← hitem, hpitem]
    · rw [hksite, ← hsite, hpsite]
    · rw [hkdoy, ← hdt, hpdt]
    · rw [hkhour, ← hdt, hpdt]
  · rw [List.countP_eq_zero]
    intro f hf hpred
    rcases reportList_types file fullRange rows f hf with h | h | h | h <;>
      simp [h] at hpred

/-- Concrete unmatched observation for C3: one valid O3 reading at station
A, while the baseline index only covers station B.  The join result is
empty, the report list is empty (so there is in particular no
baseline-missing finding of any kind), and the whole
`process_and_plot` run returns `None`, emitting nothing at all. -/
def cexRowsC3 : List RawRow := [⟨some 0, "A", "O3", RawVal.num 10⟩]

def cexLookupC3 : List BEntry := [⟨"O3", "B", 1, 0, 5⟩]

/-- Counterexample to C3 as stated: the unmatched clean observation is
*not* reported as a `baseline_missing` validation finding — no finding is
produced at all (and the source returns `None` before writing any output
when the join is empty). -/
theorem baseline_missing_never_reported_cex :
    computeAnomalies cexLookupC3 (df_clean cexRowsC3) = []
    ∧ reportList "f" (fullRangeList 0 0) cexRowsC3 = []
    ∧ process_and_plot cexLookupC3 "f" cexRowsC3 = none := by
  refine ⟨by decide, by decide, by decide⟩

/-- Witness for the amended C3 at the concrete unmatched observation. -/
theorem unmatched_observation_silently_dropped_witness :
    ((computeAnomalies cexLookupC3 (df_clean cexRowsC3)).countP fun r =>
        r.dt == (0 : ℕ) && r.site == "A" && r.item == "O3") = 0
    ∧ ((reportList "f" (fullRangeList 0 0) cexRowsC3).countP fun f =>
        !(f.type == "原始資料空值" || f.type == "非預期文字"
          || f.type == "數值越界" || f.type == "時段資料遺失")) = 0 :=
  unmatched_observation_silently_dropped cexLookupC3 (df_clean cexRowsC3)
    ⟨0, "A", "O3", 10⟩ "f" (fullRangeList 0 0) cexRowsC3
    (by norm_num [df_clean, dropBad, outOfBound, items_info, cexRowsC3])
    (by decide)

/-! ## Claim C5: baseline-index key multiplicity -/

/-- Comparison definition following the spec / amended-claim wording: the
number of numeric cells of the source tables carrying exactly the data of
entry `e` (same item table, same station row, same `(day_of_year, hour)`
column label, same numeric value). -/
def numericCellOccurrences (tables : List (String × List AvgRow)) (e : BEntry) : ℕ :=
  (tables.map fun tb =>
    (tb.2.map fun r =>
      r.cells.countP fun c =>
        decide (tb.1 = e.item) && decide (r.site = e.site)
          && decide (c.1.1 = e.doy) && decide (c.1.2 = e.hour)
          && decide (c.2 = some e.avg)).sum).sum

lemma countP_meltItem (it : String) (rows : List AvgRow) (p : BEntry → Bool) :
    (meltItem it rows).countP p =
      (rows.map fun r =>
        r.cells.countP fun c =>
          ((c.2.map fun q => p ⟨it, r.site, c.1.1, c.1.2, q⟩).getD false)).sum := by
  unfold meltItem
  rw [countP_flatMap]
  congr 1
  apply List.map_congr_left
  intro r _
  rw [countP_filterMap]
  congr 1
  funext c
  obtain ⟨⟨d, hh⟩, v⟩ := c
  cases v <;> rfl

/-- Claim C5 as amended: `load_and_transform_averages` drops non-numeric
and missing historical cells, but it never collapses duplicate keys — the
lookup retains one entry per numeric source cell, so the multiplicity of
an entry in the index equals the number of source-cell occurrences (which
can exceed one). -/
theorem baseline_index_entry_multiplicity
    (tables : List (String × List AvgRow)) (e : BEntry) :
    (load_and_transform_averages tables).countP (fun x => x == e) =
      numericCellOccurrences tables e := by
  unfold load_and_transform_averages numericCellOccurrences
  rw [countP_flatMap]
  congr 1
  apply List.map_congr_left
  intro tb _
  rw [countP_meltItem]
  congr 1
  apply List.map_congr_left
  intro r _
  congr 1
  funext c
  obtain ⟨⟨d, hh⟩, v⟩ := c
  obtain ⟨ei, es, ed, eh2, ea⟩ := e
  cases v with
  | none => simp
  | some q =>
    rw [Bool.eq_iff_iff]
    simp only [Option.map_some', Option.getD_some, beq_iff_eq, BEntry.mk.injEq,
      Bool.and_eq_true, decide_eq_true_eq, Option.some.injEq]
    tauto

/-- Duplicate-key source data for C5: the O3 table carries station 甲
twice with the same `(45, 10)` column, plus a station 乙 row whose cell is
non-numeric. -/
def cexTablesC5 : List (String × List AvgRow) :=
  [("O3", [⟨"甲", [((45, 10), some 30)]⟩, ⟨"甲", [((45, 10), some 31)]⟩,
           ⟨"乙", [((45, 10), none)]⟩])]

/-- Counterexample to C5 as stated: after building the index, the key
(O3, 甲, 45, 10) maps to TWO entries — duplicate keys within one item's
table are not collapsed by any rule; only the non-numeric cell is
dropped. -/
theorem baseline_duplicate_keys_retained_cex :
    ((load_and_transform_averages cexTablesC5).countP fun x =>
        x.item == "O3" && x.site == "甲" && x.doy == 45 && x.hour == 10) = 2
    ∧ ((load_and_transform_averages cexTablesC5).countP fun x => x.site == "乙") = 0 := by
  decide

/-! ## Claim C4: network-silent hours, major events and per-station counts -/

/-- Grid hours at which the `(s, i)` station-item pair has no clean
observation — exactly the hours a full reindex of that group would leave
missing. -/
def missingHoursFor (fullRange : List ℕ) (clean : List CleanObs) (s i : String) : List ℕ :=
  fullRange.filter fun t => !clean.any fun o => o.site == s && o.item == i && o.dt == t

lemma fullRangeList_nodup (lo hi : ℕ) : (fullRangeList lo hi).Nodup := by
  unfold fullRangeList
  exact (List.nodup_range _).map fun a b h => by omega

lemma filter_mem_length (L : List ℕ) (hL : L.Nodup) (d : List ℕ)
    (hd : ∀ x ∈ d, x ∈ L) :
    (L.filter fun t => decide (t ∈ d)).length = d.dedup.length := by
  have h1 : (L.filter fun t => decide (t ∈ d)).Nodup := hL.filter _
  have h2 : (L.filter fun t => decide (t ∈ d)).toFinset = d.toFinset := by
    ext x
    simp only [List.mem_toFinset, List.mem_filter, decide_eq_true_eq]
    exact ⟨fun hx => hx.2, fun hx => ⟨hd x hx, hx⟩⟩
  calc (L.filter fun t => decide (t ∈ d)).length
      = (L.filter fun t => decide (t ∈ d)).toFinset.card :=
        (List.toFinset_card_of_nodup h1).symm
    _ = d.toFinset.card := by rw [h2]
    _ = d.dedup.length := List.card_toFinset d

lemma length_sub_dedup_eq_filter_not (L : List ℕ) (hL : L.Nodup) (d : List ℕ)
    (hd : ∀ x ∈ d, x ∈ L) :
    L.length - d.dedup.length = (L.filter fun t => !decide (t ∈ d)).length := by
  have hc := countP_add_countP_not (fun t => decide (t ∈ d)) L
  rw [List.countP_eq_length_filter, List.countP_eq_length_filter] at hc
  rw [← filter_mem_length L hL d hd]
  omega

/-- Claim C4 as amended: a grid timestamp at which no station has a clean
observation yields exactly one MajorEvent (computed on `df_clean`, before
the baseline join) — but it is NOT excluded from the per-(station,item)
`時段資料遺失` counts: every reported count equals the number of grid
hours missing for that group, a set that contains the network-silent
hour. -/
theorem major_event_unique_and_counted_in_station_findings
    (file : String) (lo hi t : ℕ) (clean : List CleanObs)
    (ht : t ∈ fullRangeList lo hi)
    (hsilent : ∀ o ∈ clean, o.dt ≠ t)
    (hsub : ∀ o ∈ clean, o.dt ∈ fullRangeList lo hi) :
    ((majorEvents file (fullRangeList lo hi) clean).countP fun e => e.dt == t) = 1
    ∧ ∀ s i n, (s, i, n) ∈ missingSummary (fullRangeList lo hi) clean →
        n = (missingHoursFor (fullRangeList lo hi) clean s i).length
        ∧ t ∈ missingHoursFor (fullRangeList lo hi) clean s i := by
  constructor
  · unfold majorEvents
    rw [List.countP_map]
    have hpred : ((fun e : MajorEvent => e.dt == t) ∘
        fun u => (⟨file, u, "重大事件：全網斷訊"⟩ : MajorEvent)) = fun u => u == t := by
      funext u
      rfl
    rw [hpred, ← List.count_eq_countP]
    apply List.count_eq_one_of_mem
    · exact (fullRangeList_nodup lo hi).filter _
    · rw [List.mem_filter]
      refine ⟨ht, ?_⟩
      simp only [Bool.not_eq_true', List.any_eq_false, beq_iff_eq]
      intro o ho
      exact hsilent o ho
  · intro s i n hmem
    unfold missingSummary at hmem
    rcases List.mem_filterMap.mp hmem with ⟨si, _, heq⟩
    by_cases hlen :
        (clean.filter fun o => o.site == si.1 && o.item == si.2).length <
          (fullRangeList lo hi).length
    · rw [if_pos hlen] at heq
      simp only [Option.some.injEq, Prod.mk.injEq] at heq
      obtain ⟨hs, hi2, hn⟩ := heq
      subst hs
      subst hi2
      have hfe : missingHoursFor (fullRangeList lo hi) clean si.1 si.2 =
          (fullRangeList lo hi).filter fun u =>
            !decide (u ∈ ((clean.filter fun o =>
              o.site == si.1 && o.item == si.2).map fun o => o.dt)) := by
        unfold missingHoursFor
        apply List.filter_congr
        intro u _
        congr 1
        rw [Bool.eq_iff_iff]
        simp only [List.any_eq_true, Bool.and_eq_true, beq_iff_eq,
          decide_eq_true_eq, List.mem_map, List.mem_filter]
        tauto
      constructor
      · rw [← hn, hfe]
        apply length_sub_dedup_eq_filter_not _ (fullRangeList_nodup lo hi)
        intro x hx
        rcases List.mem_map.mp hx with ⟨o, ho, hdt⟩
        exact hdt ▸ hsub o (List.mem_filter.mp ho).1
      · unfold missingHoursFor
        rw [List.mem_filter]
        refine ⟨ht, ?_⟩
        simp only [Bool.not_eq_true', List.any_eq_false, Bool.and_eq_true, beq_iff_eq]
        intro o ho hcontra
        exact hsilent o ho hcontra.2
    · rw [if_neg hlen] at heq
      exact absurd heq (by simp)

/-- Concrete file for C4: station A, item O3 observed at hours 0 and 2 of
the grid [0, 1, 2]; hour 1 is silent network-wide. -/
def cexCleanC4 : List CleanObs := [⟨0, "A", "O3", 10⟩, ⟨2, "A", "O3", 12⟩]

/-- Counterexample to C4 as stated: the network-silent hour 1 appears as
one MajorEvent AND is also counted (count = 1) inside the per-(A,O3)
時段資料遺失 finding; every missing hour of that group is network-silent
(the filter of observed-by-someone missing hours is empty), so under the
claim the per-station count would have to be 0, but the code reports 1 —
the hour is double-counted. -/
theorem network_silent_hour_double_counted_cex :
    missingSummary (fullRangeList 0 2) cexCleanC4 = [("A", "O3", 1)]
    ∧ majorEvents "f" (fullRangeList 0 2) cexCleanC4 =
        [⟨"f", 1, "重大事件：全網斷訊"⟩]
    ∧ missingHoursFor (fullRangeList 0 2) cexCleanC4 "A" "O3" = [1]
    ∧ ((missingHoursFor (fullRangeList 0 2) cexCleanC4 "A" "O3").filter fun u =>
        cexCleanC4.any fun o => o.dt == u) = [] := by
  decide

/-- Witness for the amended C4 at the concrete file. -/
theorem major_event_unique_and_counted_in_station_findings_witness :
    ((majorEvents "f" (fullRangeList 0 2) cexCleanC4).countP fun e => e.dt == 1) = 1
    ∧ (1 = (missingHoursFor (fullRangeList 0 2) cexCleanC4 "A" "O3").length
       ∧ 1 ∈ missingHoursFor (fullRangeList 0 2) cexCleanC4 "A" "O3") :=
  ⟨(major_event_unique_and_counted_in_station_findings "f" 0 2 1 cexCleanC4
      (by decide) (by decide) (by decide)).1,
   (major_event_unique_and_counted_in_station_findings "f" 0 2 1 cexCleanC4
      (by decide) (by decide) (by decide)).2 "A" "O3" 1 (by decide)⟩

/-! ## Claim C7: regional averages -/

def listMax : List ℚ → ℚ
  | [] => 0
  | [a] => a
  | a :: b :: r => max a (listMax (b :: r))

def listMin : List ℚ → ℚ
  | [] => 0
  | [a] => a
  | a :: b :: r => min a (listMin (b :: r))

lemma le_listMax (l : List ℚ) : ∀ x ∈ l, x ≤ listMax l := by
  induction l with
  | nil => intro x hx; exact absurd hx (List.not_mem_nil x)
  | cons a t ih =>
    intro x hx
    cases t with
    | nil =>
      rw [List.mem_singleton.mp hx]
      exact le_refl _
    | cons b r =>
      rcases List.mem_cons.mp hx with hxa | hxt
      · rw [hxa]
        exact le_max_left _ _
      · exact le_trans (ih x hxt) (le_max_right _ _)

lemma listMin_le (l : List ℚ) : ∀ x ∈ l, listMin l ≤ x := by
  induction l with
  | nil => intro x hx; exact absurd hx (List.not_mem_nil x)
  | cons a t ih =>
    intro x hx
    cases t with
    | nil =>
      rw [List.mem_singleton.mp hx]
      exact le_refl _
    | cons b r =>
      rcases List.mem_cons.mp hx with hxa | hxt
      · rw [hxa]
        exact min_le_left _ _
      · exact le_trans (min_le_right _ _) (ih x hxt)

lemma mean_le_listMax (l : List ℚ) (h : l ≠ []) :
    l.sum / (l.length : ℚ) ≤ listMax l := by
  have hlen : (0 : ℚ) < (l.length : ℚ) := by
    exact_mod_cast List.length_pos.mpr h
  rw [div_le_iff₀ hlen]
  have hs := List.sum_le_card_nsmul l (listMax l) (le_listMax l)
  rwa [nsmul_eq_mul, mul_comm] at hs

lemma listMin_le_mean (l : List ℚ) (h : l ≠ []) :
    listMin l ≤ l.sum / (l.length : ℚ) := by
  have hlen : (0 : ℚ) < (l.length : ℚ) := by
    exact_mod_cast List.length_pos.mpr h
  rw [le_div_iff₀ hlen]
  have hs := List.card_nsmul_le_sum l (listMin l) (listMin_le l)
  rwa [nsmul_eq_mul, mul_comm] at hs

lemma rkey_pred_eq (k k' : RKey) :
    (k'.dt == k.dt && k'.item == k.item && k'.region == k.region) = (k' == k) := by
  obtain ⟨d, i, r⟩ := k
  obtain ⟨d2, i2, r2⟩ := k'
  rw [Bool.eq_iff_iff]
  simp [RKey.mk.injEq, and_assoc]

lemma regionContrib_eq_nil_iff (recs : List ARec) (k : RKey) :
    regionContrib recs k = [] ↔
      ∀ x ∈ validRegionRows recs, ¬(x.1 == k) = true := by
  unfold regionContrib
  rw [List.map_eq_nil_iff, List.filter_eq_nil_iff]

/-- Claim C7: for every (timestamp, item, region) group with at least one
contributing station row, `regionAvg` carries exactly one record for that
key; its value is the arithmetic mean of the contributing anomalies and
lies between their minimum and maximum.  A group with zero contributing
rows yields no record. -/
theorem regional_average_is_bounded_mean (recs : List ARec) (k : RKey) :
    (regionContrib recs k ≠ [] →
      ((regionAvg recs).countP fun a =>
          a.dt == k.dt && a.item == k.item && a.region == k.region) = 1
      ∧ (regionAvg recs).find? (fun a =>
          a.dt == k.dt && a.item == k.item && a.region == k.region) =
          some ⟨k.dt, k.item, k.region,
            (regionContrib recs k).sum / ((regionContrib recs k).length : ℚ),
            "AVG_" ++ k.region⟩
      ∧ listMin (regionContrib recs k) ≤
          (regionContrib recs k).sum / ((regionContrib recs k).length : ℚ)
      ∧ (regionContrib recs k).sum / ((regionContrib recs k).length : ℚ) ≤
          listMax (regionContrib recs k))
    ∧ (regionContrib recs k = [] →
      ((regionAvg recs).countP fun a =>
          a.dt == k.dt && a.item == k.item && a.region == k.region) = 0) := by
  have hcomp : ((fun a : RegAvg =>
      a.dt == k.dt && a.item == k.item && a.region == k.region) ∘
      (fun k' : RKey =>
        (⟨k'.dt, k'.item, k'.region,
          (regionContrib recs k').sum / ((regionContrib recs k').length : ℚ),
          "AVG_" ++ k'.region⟩ : RegAvg))) = fun k' => k' == k := by
    funext k'
    exact rkey_pred_eq k k'
  constructor
  · intro hne
    have hmem : k ∈ ((validRegionRows recs).map Prod.fst).dedup := by
      rw [List.mem_dedup]
      rcases List.exists_cons_of_ne_nil hne with ⟨v, tail, hv⟩
      have : v ∈ regionContrib recs k := by rw [hv]; exact List.mem_cons_self v tail
      unfold regionContrib at this
      rcases List.mem_map.mp this with ⟨x, hx, _⟩
      rcases List.mem_filter.mp hx with ⟨hx2, hx3⟩
      exact List.mem_map.mpr ⟨x, hx2, beq_iff_eq.mp hx3⟩
    refine ⟨?_, ?_, listMin_le_mean _ hne, mean_le_listMax _ hne⟩
    · unfold regionAvg
      rw [List.countP_map, hcomp, ← List.count_eq_countP]
      exact List.count_eq_one_of_mem (List.nodup_dedup _) hmem
    · unfold regionAvg
      rw [List.find?_map, hcomp, find?_beq_of_mem hmem]
      rfl
  · intro hnil
    unfold regionAvg
    rw [List.countP_map, hcomp, ← List.count_eq_countP, List.count_eq_zero]
    intro hmem
    rw [List.mem_dedup] at hmem
    rcases List.mem_map.mp hmem with ⟨x, hx, hfst⟩
    exact (regionContrib_eq_nil_iff recs k).mp hnil x hx (beq_iff_eq.mpr hfst)

/-- Concrete regional group for C7: two northern stations (三重, 中壢)
with O3 anomalies 1 and 3 at hour 0; the regional mean is their average
2, inside [1, 3]. -/
def wrecsC7 : List ARec :=
  [⟨0, "三重", "O3", 31, 30, 1⟩, ⟨0, "中壢", "O3", 33, 30, 3⟩]

def wkC7 : RKey := ⟨0, "O3", "北"⟩

/-- Witness for C7 at the concrete group. -/
theorem regional_average_is_bounded_mean_witness :
    ((regionAvg wrecsC7).countP fun a =>
        a.dt == wkC7.dt && a.item == wkC7.item && a.region == wkC7.region) = 1
    ∧ (regionAvg wrecsC7).find? (fun a =>
        a.dt == wkC7.dt && a.item == wkC7.item && a.region == wkC7.region) =
        some ⟨wkC7.dt, wkC7.item, wkC7.region,
          (regionContrib wrecsC7 wkC7).sum / ((regionContrib wrecsC7 wkC7).length : ℚ),
          "AVG_" ++ wkC7.region⟩
    ∧ listMin (regionContrib wrecsC7 wkC7) ≤
        (regionContrib wrecsC7 wkC7).sum / ((regionContrib wrecsC7 wkC7).length : ℚ)
    ∧ (regionContrib wrecsC7 wkC7).sum / ((regionContrib wrecsC7 wkC7).length : ℚ) ≤
        listMax (regionContrib wrecsC7 wkC7) :=
  (regional_average_is_bounded_mean wrecsC7 wkC7).1 (by decide)
